import Mathlib

/-!
Shallow embedding of the agent orchestration engine of
`advanced-examples/master-controller/main.py`, and proofs about it.

The embedding models the in-memory state of `MasterController` — the
`agents` dict, the `tasks` dict, the `PriorityQueue` of tasks and the
stream of messages published on the `MessageBus` — together with the
operations `register_agent`, `start_agent`, `stop_agent`, `submit_task`
and one tick of `health_check_loop`.

Interactions with the operating system (manifest reads, `subprocess.Popen`,
`psutil` signalling and sampling, clock reads) are passed in as explicit
oracle arguments: each operation receives the outcome the OS would produce
at that point.  Timestamps are abstracted to natural numbers.  Two ghost
fields record externally observable effects: `spawned` (the pids of
processes created by a successful `Popen`) and the list of invocations of
`start_agent`.
-/

namespace MasterController

/-- `AgentStatus` enum from the source. -/
inductive AgentStatus where
  | stopped
  | starting
  | running
  | stopping
  | failed
  | unknown
deriving DecidableEq, Repr

/-- `TaskStatus` enum from the source. -/
inductive TaskStatus where
  | pending
  | running
  | completed
  | failed
  | cancelled
deriving DecidableEq, Repr

/-- The dict returned by `ResourceMonitor.get_agent_resources` on success.
Numeric sample values (floats in the source) are abstracted to integers. -/
structure Resources where
  cpu_percent : Int
  memory_mb : Int
  memory_percent : Int
  num_threads : Int
  proc_status : String
deriving DecidableEq, Repr

/-- The `AgentInfo` dataclass. `pid` is `Option Nat` for `Optional[int]`;
`last_health_check` is an abstracted timestamp. -/
structure AgentInfo where
  name : String
  manifest_path : String
  status : AgentStatus
  pid : Option Nat := none
  priority : Int := 5
  last_health_check : Option Nat := none
  restart_count : Nat := 0
  resource_usage : Option Resources := none
deriving DecidableEq, Repr

/-- The `Task` dataclass.  `params` is the opaque `Dict[str, Any]` payload,
modelled as an association list of strings. -/
structure Task where
  id : String
  agent : String
  action : String
  params : List (String × String)
  priority : Int
  status : TaskStatus
  created_at : Nat
  started_at : Option Nat := none
  completed_at : Option Nat := none
  result : Option String := none
  error : Option String := none
deriving DecidableEq, Repr

/-- A message published on the bus with topic `agent.status`:
`{'agent': ..., 'status': ..., 'pid': ...}`; `pid` is absent (`none`) in
the `stopped` event. -/
structure StatusEvent where
  agent : String
  status : String
  pid : Option Nat := none
deriving DecidableEq, Repr

/-- The configuration values that `health_check_loop` reads from
`self.config` (with the source's defaults). -/
structure Config where
  restart_on_failure : Bool := true
  max_restart_attempts : Nat := 3
deriving DecidableEq, Repr

/-- In-memory state of a `MasterController`.  Python dicts are modelled as
insertion-ordered association lists.  `task_queue` holds the contents of the
`PriorityQueue`, kept sorted in the ascending tuple order in which
`PriorityQueue.get` would pop the entries.  `published` is the stream of
messages `publish`ed on the bus.  `spawned` and `start_invocations` are
ghost logs of observable effects: pids of processes created by a successful
`subprocess.Popen`, and the agent names `start_agent` was called with. -/
structure ControllerState where
  agents : List (String × AgentInfo) := []
  tasks : List (String × Task) := []
  task_queue : List (Int × String) := []
  published : List (String × StatusEvent) := []
  spawned : List Nat := []
  start_invocations : List String := []
deriving DecidableEq, Repr

/-- The freshly constructed controller (before any discovery). -/
def initState : ControllerState := {}

/-- Dict assignment `d[name] = agent`: replaces the binding in place if the
key exists (Python dicts keep the original insertion position), otherwise
appends. -/
def setAgent (l : List (String × AgentInfo)) (n : String) (a : AgentInfo) :
    List (String × AgentInfo) :=
  match l with
  | [] => [(n, a)]
  | (k, v) :: rest =>
    if k = n then (k, a) :: rest else (k, v) :: setAgent rest n a

/-- Dict assignment for the `tasks` dict. -/
def setTask (l : List (String × Task)) (n : String) (t : Task) :
    List (String × Task) :=
  match l with
  | [] => [(n, t)]
  | (k, v) :: rest =>
    if k = n then (k, t) :: rest else (k, v) :: setTask rest n t

/-- Python truthiness of an `Optional[int]` pid: `None` and `0` are falsy.
(OS process ids are positive, so a stored pid is in practice truthy.) -/
def pidTruthy : Option Nat → Bool
  | none => false
  | some p => decide (p ≠ 0)

/-- `register_agent(name, manifest_path)`.  The oracle `manifest` is the
outcome of opening and parsing the manifest: `none` when reading or parsing
raises (the exception is caught and logged, and the state is unchanged);
`some m` on success, where `m` is the value of the `priority` key if
present.  On success a fresh record with `status = STOPPED` is stored with
`self.agents[name] = agent`, overwriting any existing record. -/
def register_agent (s : ControllerState) (name manifest_path : String)
    (manifest : Option (Option Int)) : ControllerState :=
  match manifest with
  | none => s
  | some m =>
    let agent : AgentInfo :=
      { name := name
        manifest_path := manifest_path
        status := AgentStatus.stopped
        priority := m.getD 5 }
    { s with agents := setAgent s.agents name agent }

/-- The body of `start_agent` (after the ghost call log has been
appended).  Oracles: `mse` is whether the agent's `main.py` exists; `spawn`
is the outcome of `subprocess.Popen` (`some pid` on success, `none` when it
raises — the `except` branch then sets the status to `FAILED`); `now` is
the clock read for `last_health_check`. -/
def startAgentRun (s : ControllerState) (name : String) (mse : Bool)
    (spawn : Option Nat) (now : Nat) : ControllerState × Bool :=
  match s.agents.lookup name with
  | none => (s, false)
  | some agent =>
    if agent.status = AgentStatus.running then
      (s, true)
    else
      -- agent.status = STARTING, then the body of the try block
      if !mse then
        let failed := { agent with status := AgentStatus.failed }
        ({ s with agents := setAgent s.agents name failed }, false)
      else
        match spawn with
        | none =>
          let failed := { agent with status := AgentStatus.failed }
          ({ s with agents := setAgent s.agents name failed }, false)
        | some pid =>
          let agent := { agent with
                         pid := some pid
                         status := AgentStatus.running
                         last_health_check := some now }
          let ev : StatusEvent :=
            { agent := name, status := "started", pid := some pid }
          ({ s with
             agents := setAgent s.agents name agent
             spawned := s.spawned ++ [pid]
             published := s.published ++ [("agent.status", ev)] },
           true)

/-- `start_agent(name) -> bool`: the ghost `start_invocations` log records
the call itself, then the body runs. -/
def start_agent (s : ControllerState) (name : String) (mse : Bool)
    (spawn : Option Nat) (now : Nat) : ControllerState × Bool :=
  startAgentRun
    { s with start_invocations := s.start_invocations ++ [name] }
    name mse spawn now

/-- `stop_agent(name) -> bool`.  The oracle `stopErr` is whether any of the
`psutil.Process` / `terminate` / `wait` / `kill` calls raises: the `except`
branch then logs and returns `False`, leaving the record in `STOPPING` with
its pid.  On the error-free path the record reaches `STOPPED` with
`pid = None` and a `stopped` event is published. -/
def stop_agent (s : ControllerState) (name : String) (stopErr : Bool) :
    ControllerState × Bool :=
  match s.agents.lookup name with
  | none => (s, false)
  | some agent =>
    if agent.status ≠ AgentStatus.running ∨ ¬ pidTruthy agent.pid then
      (s, true)
    else
      let agent1 := { agent with status := AgentStatus.stopping }
      if stopErr then
        ({ s with agents := setAgent s.agents name agent1 }, false)
      else
        let agent2 := { agent1 with
                        status := AgentStatus.stopped
                        pid := (none : Option Nat) }
        let ev : StatusEvent :=
          { agent := name, status := "stopped", pid := none }
        ({ s with
           agents := setAgent s.agents name agent2
           published := s.published ++ [("agent.status", ev)] },
         true)

/-- The task id `f"{agent}_{action}_{int(time.time()*1000)}"`; `nowMs` is
the millisecond clock read. -/
def mkTaskId (agent action : String) (nowMs : Nat) : String :=
  agent ++ "_" ++ action ++ "_" ++ toString nowMs

/-- Python string comparison `s < t`: lexicographic on Unicode code
points. -/
def pyStrLt : List Char → List Char → Bool
  | [], [] => false
  | [], _ :: _ => true
  | _ :: _, [] => false
  | c :: cs, d :: ds =>
    if c < d then true else if d < c then false else pyStrLt cs ds

/-- Python string comparison `s <= t`. -/
def pyStrLe (s t : String) : Bool :=
  !(pyStrLt t.data s.data)

/-- Pop order of `PriorityQueue`: entries come out in ascending order of
the tuple `(-priority, task_id)`, compared lexicographically with Python
string order on the id. -/
def keyLE (x y : Int × String) : Bool :=
  decide (x.1 < y.1) || (decide (x.1 = y.1) && pyStrLe x.2 y.2)

/-- `task_queue.put(entry)`: the queue is represented as the list of its
entries sorted in pop order, so a put is an ordered insertion. -/
def queueInsert (x : Int × String) : List (Int × String) →
    List (Int × String)
  | [] => [x]
  | y :: ys => if keyLE x y then x :: y :: ys else y :: queueInsert x ys

/-- Draining the queue with repeated `PriorityQueue.get` yields the ids in
the order of the sorted representation. -/
def drainQueue (q : List (Int × String)) : List String :=
  q.map Prod.snd

/-- `submit_task(agent, action, params, priority) -> task_id`.  `nowMs` is
the `int(time.time()*1000)` read used for the id, `created` the
`datetime.now()` read stored in `created_at`.  The entry `(-priority, id)`
is pushed on the queue (negative priority for a max-heap). -/
def submit_task (s : ControllerState) (agent action : String)
    (params : List (String × String)) (priority : Int) (nowMs created : Nat) :
    ControllerState × String :=
  let task_id := mkTaskId agent action nowMs
  let task : Task :=
    { id := task_id
      agent := agent
      action := action
      params := params
      priority := priority
      status := TaskStatus.pending
      created_at := created }
  ({ s with
      tasks := setTask s.tasks task_id task
      task_queue := queueInsert (-priority, task_id) s.task_queue },
   task_id)

/-- The body of one `health_check_loop` iteration for a single agent.
Oracles: `sample` is what `get_agent_resources(agent.pid)` returns (`none`
when the process is gone); `mse`, `spawn`, `now2` are the oracles of the
`start_agent` call made on restart; `now` is the clock read refreshing
`last_health_check` on a successful sample.  When the process died the
record is marked `FAILED` (its pid is not cleared and no event is
published), and if restarts are enabled and `restart_count` is below the
configured maximum, the count is incremented and `start_agent` is called. -/
def healthTickAgent (cfg : Config) (s : ControllerState) (name : String)
    (sample : Option Resources) (mse : Bool) (spawn : Option Nat)
    (now now2 : Nat) : ControllerState :=
  match s.agents.lookup name with
  | none => s
  | some agent =>
    if agent.status = AgentStatus.running ∧ pidTruthy agent.pid then
      match sample with
      | none =>
        let agent1 := { agent with status := AgentStatus.failed }
        let s1 := { s with agents := setAgent s.agents name agent1 }
        if cfg.restart_on_failure then
          if agent1.restart_count < cfg.max_restart_attempts then
            let agent2 := { agent1 with
              restart_count := agent1.restart_count + 1 }
            let s2 := { s1 with agents := setAgent s1.agents name agent2 }
            (start_agent s2 name mse spawn now2).1
          else s1
        else s1
      | some r =>
        let agent1 := { agent with
                        resource_usage := some r
                        last_health_check := some now }
        { s with agents := setAgent s.agents name agent1 }
    else s

/-- One full tick of `health_check_loop`: iterate over the agents dict in
insertion order, handling each agent with its own oracles. -/
def health_tick (cfg : Config) (s : ControllerState)
    (sample : String → Option Resources) (mse : String → Bool)
    (spawn : String → Option Nat) (now : String → Nat)
    (now2 : String → Nat) : ControllerState :=
  (s.agents.map Prod.fst).foldl
    (fun st n => healthTickAgent cfg st n (sample n) (mse n) (spawn n)
      (now n) (now2 n)) s

/-- States of a controller reachable from construction by any interleaving
of operator commands (`register_agent`, `start_agent`, `stop_agent`,
`submit_task`) and ticks of the health-check loop, each with arbitrary OS
outcomes.  The side conditions on `spawn` record the environment fact that
an OS process id is positive. -/
inductive Reachable (cfg : Config) : ControllerState → Prop where
  | init : Reachable cfg initState
  | register (s : ControllerState) (name mpath : String)
      (manifest : Option (Option Int)) :
      Reachable cfg s → Reachable cfg (register_agent s name mpath manifest)
  | start (s : ControllerState) (name : String) (mse : Bool)
      (spawn : Option Nat) (now : Nat) :
      Reachable cfg s → (∀ p, spawn = some p → 0 < p) →
      Reachable cfg (start_agent s name mse spawn now).1
  | stop (s : ControllerState) (name : String) (stopErr : Bool) :
      Reachable cfg s → Reachable cfg (stop_agent s name stopErr).1
  | submit (s : ControllerState) (agent action : String)
      (params : List (String × String)) (priority : Int) (nowMs created : Nat) :
      Reachable cfg s →
      Reachable cfg (submit_task s agent action params priority nowMs created).1
  | tick (s : ControllerState) (sample : String → Option Resources)
      (mse : String → Bool) (spawn : String → Option Nat)
      (now now2 : String → Nat) :
      Reachable cfg s → (∀ n p, spawn n = some p → 0 < p) →
      Reachable cfg (health_tick cfg s sample mse spawn now now2)

/-- A per-record property holding of every record in an agents dict. -/
def ListInv (P : AgentInfo → Prop) (l : List (String × AgentInfo)) : Prop :=
  ∀ n a, l.lookup n = some a → P a

/-- Record-level invariant behind C1 and C10: a record in one of the
pid-carrying statuses has a pid, and every stored pid is positive. -/
def RecPidInv (a : AgentInfo) : Prop :=
  ((a.status = AgentStatus.starting ∨ a.status = AgentStatus.running ∨
    a.status = AgentStatus.stopping) → a.pid ≠ none) ∧
  (∀ p, a.pid = some p → 0 < p)

/-- Record-level invariant behind C2: the restart count stays within the
configured bound. -/
def RecBound (cfg : Config) (a : AgentInfo) : Prop :=
  a.restart_count ≤ cfg.max_restart_attempts

/-- A configuration with automatic restarts disabled. -/
def cfgNoRestart : Config :=
  { restart_on_failure := false, max_restart_attempts := 3 }

/-- Concrete scenario: agent `a` registered from a readable manifest whose
`priority` key is `5`. -/
def regA : ControllerState :=
  register_agent initState "a" "agents/a/manifest.yaml" (some (some 5))

/-- Concrete scenario: agent `a` started successfully; the OS gave pid 7
and the clock read 100. -/
def runA : ControllerState := (start_agent regA "a" true (some 7) 100).1

/-- The record of agent `a` in `runA`. -/
def runAgentA : AgentInfo :=
  { name := "a"
    manifest_path := "agents/a/manifest.yaml"
    status := AgentStatus.running
    pid := some 7
    priority := 5
    last_health_check := some 100
    restart_count := 0
    resource_usage := none }

/-- Concrete scenario: one health-check tick on `runA` that finds the
process of `a` gone (restart disabled by `cfgNoRestart`). -/
def tickDead : ControllerState :=
  health_tick cfgNoRestart runA (fun _ => none) (fun _ => true)
    (fun _ => none) (fun _ => 200) (fun _ => 201)

/-- Concrete scenario for the scheduler: submissions
`(priority 5, a)`, `(priority 8, b)`, `(priority 5, c)` in that order. -/
def exampleTaskState : ControllerState :=
  (submit_task (submit_task (submit_task initState
      "a" "x" [] 5 1000 1000).1
      "b" "x" [] 8 1001 1001).1
      "c" "x" [] 5 1002 1002).1

/-- Concrete scenario for the tie-break: two priority-5 submissions, agent
`z` first (at ms 1000), agent `a` second (at ms 2000). -/
def tieTaskState : ControllerState :=
  (submit_task (submit_task initState
      "z" "x" [] 5 1000 1000).1
      "a" "x" [] 5 2000 2000).1

end MasterController

namespace MessageBus

/-- Payload of a bus message (`Dict[str, Any]` in the source), modelled as
an association list of strings. -/
abbrev Msg := List (String × String)

/-- A subscriber callback registered with `subscribe`.  `id` identifies
the callback; `fails m` says whether invoking it on message `m` raises an
exception. -/
structure Callback where
  id : Nat
  fails : Msg → Bool

/-- Invoking `callback(message)`: `.error` when the call raises. -/
def runCallback (cb : Callback) (m : Msg) : Except String Unit :=
  if cb.fails m then Except.error "Error in subscriber callback"
  else Except.ok ()

/-- The inner loop of `_process_messages` for one message: each callback
subscribed to the topic is invoked in turn; an exception from a callback is
caught and logged, and the loop continues with the next callback.  Returns
the invocations made (callback id, topic, message) and the logged
errors. -/
def dispatchTopic (cbs : List Callback) (topic : String) (m : Msg) :
    List (Nat × String × Msg) × List String :=
  match cbs with
  | [] => ([], [])
  | cb :: rest =>
    let tail := dispatchTopic rest topic m
    match runCallback cb m with
    | Except.ok _ => ((cb.id, topic, m) :: tail.1, tail.2)
    | Except.error e => ((cb.id, topic, m) :: tail.1, e :: tail.2)

/-- Processing one message taken off the queue: dispatch it to every
callback registered for its topic (none, if the topic has no
subscribers). -/
def processMessage (subs : List (String × List Callback)) (topic : String)
    (m : Msg) : List (Nat × String × Msg) × List String :=
  match subs.lookup topic with
  | none => ([], [])
  | some cbs => dispatchTopic cbs topic m

/-- The consumer thread draining the queue: messages are processed in
strict publish order, and an error inside a callback never stops the
bus. -/
def processAll (subs : List (String × List Callback)) :
    List (String × Msg) → List (Nat × String × Msg)
  | [] => []
  | (t, m) :: rest => (processMessage subs t m).1 ++ processAll subs rest

end MessageBus

namespace MasterController

/-- A callback that raises on every message. -/
def badCb : MessageBus.Callback := { id := 1, fails := fun _ => true }

/-- A well-behaved callback. -/
def goodCb : MessageBus.Callback := { id := 2, fails := fun _ => false }

/-- Two subscribers on the `agent.status` topic, the throwing one first. -/
def demoSubs : List (String × List MessageBus.Callback) :=
  [("agent.status", [badCb, goodCb])]

/-- A sample bus message. -/
def demoMsg : MessageBus.Msg := [("agent", "a"), ("status", "failed")]

theorem lookup_cons_pair (k m : String) (v : AgentInfo)
    (rest : List (String × AgentInfo)) :
    List.lookup m ((k, v) :: rest) =
      if m = k then some v else List.lookup m rest := by
  rw [List.lookup]
  by_cases h : m = k
  · simp [h]
  · simp [beq_false_of_ne h, h]

theorem lookup_setAgent (l : List (String × AgentInfo)) (n m : String)
    (a : AgentInfo) :
    (setAgent l n a).lookup m = if m = n then some a else l.lookup m := by
  induction l with
  | nil =>
    simp only [setAgent, lookup_cons_pair, List.lookup_nil]
  | cons kv rest ih =>
    obtain ⟨k, v⟩ := kv
    by_cases hkn : k = n
    · rw [setAgent, if_pos hkn, lookup_cons_pair, lookup_cons_pair]
      by_cases hmk : m = k
      · rw [if_pos hmk, if_pos (hmk.trans hkn)]
      · rw [if_neg hmk, if_neg (fun h => hmk (h.trans hkn.symm)), if_neg hmk]
    · rw [setAgent, if_neg hkn, lookup_cons_pair, ih, lookup_cons_pair]
      by_cases hmk : m = k
      · rw [if_pos hmk, if_neg (fun h => hkn (hmk.symm.trans h)), if_pos hmk]
      · by_cases hmn : m = n
        · rw [if_neg hmk, if_pos hmn, if_pos hmn]
        · rw [if_neg hmk, if_neg hmn, if_neg hmn, if_neg hmk]

theorem ListInv_setAgent {P : AgentInfo → Prop} {l : List (String × AgentInfo)}
    {n : String} {a : AgentInfo} (hl : ListInv P l) (ha : P a) :
    ListInv P (setAgent l n a) := by
  intro m b hb
  rw [lookup_setAgent] at hb
  split at hb
  · cases hb; exact ha
  · exact hl m b hb

theorem foldl_preserve {α β : Type} (P : α → Prop) (f : α → β → α)
    (l : List β) (s : α) (hs : P s)
    (hf : ∀ st x, P st → P (f st x)) : P (List.foldl f s l) := by
  induction l generalizing s with
  | nil => exact hs
  | cons x xs ih => exact ih (f s x) (hf s x hs)

theorem recPidInv_register (name mpath : String) (m : Option Int) :
    RecPidInv { name := name, manifest_path := mpath,
                status := AgentStatus.stopped, priority := m.getD 5 } := by
  constructor
  · rintro (h | h | h) <;> simp_all
  · intro p hp; simp_all

theorem pidInv_startRun (s : ControllerState) (name : String) (mse : Bool)
    (spawn : Option Nat) (now : Nat)
    (hs : ListInv RecPidInv s.agents) (hp : ∀ p, spawn = some p → 0 < p) :
    ListInv RecPidInv (startAgentRun s name mse spawn now).1.agents := by
  unfold startAgentRun
  cases hl : s.agents.lookup name with
  | none => simp only [hl]; exact hs
  | some agent =>
    have hrec := hs name agent hl
    by_cases hr : agent.status = AgentStatus.running
    · simp only [hl, hr, if_pos rfl]
      exact hs
    · cases hmse : mse with
      | false =>
        simp only [hl, if_neg hr, hmse]
        refine ListInv_setAgent hs ?_
        exact ⟨by rintro (h | h | h) <;> simp_all, hrec.2⟩
      | true =>
        cases hsp : spawn with
        | none =>
          simp only [hl, if_neg hr, hmse]
          refine ListInv_setAgent hs ?_
          exact ⟨by rintro (h | h | h) <;> simp_all, hrec.2⟩
        | some pid =>
          simp only [hl, if_neg hr, hmse]
          refine ListInv_setAgent hs ?_
          refine ⟨by simp, ?_⟩
          intro p hp'
          simp only [Option.some.injEq] at hp'
          exact hp' ▸ hp pid hsp

theorem pidInv_start (s : ControllerState) (name : String) (mse : Bool)
    (spawn : Option Nat) (now : Nat)
    (hs : ListInv RecPidInv s.agents) (hp : ∀ p, spawn = some p → 0 < p) :
    ListInv RecPidInv (start_agent s name mse spawn now).1.agents :=
  pidInv_startRun _ name mse spawn now hs hp

theorem pidInv_stop (s : ControllerState) (name : String) (stopErr : Bool)
    (hs : ListInv RecPidInv s.agents) :
    ListInv RecPidInv (stop_agent s name stopErr).1.agents := by
  unfold stop_agent
  cases hl : s.agents.lookup name with
  | none => exact hs
  | some agent =>
    have hrec := hs name agent hl
    by_cases hg : agent.status ≠ AgentStatus.running ∨ ¬ pidTruthy agent.pid
    · simp only [hl, if_pos hg]
      exact hs
    · push_neg at hg
      obtain ⟨hrun, htr⟩ := hg
      have hpid : agent.pid ≠ none := by
        cases hp : agent.pid <;> simp_all [pidTruthy]
      simp only [hl]
      rw [if_neg (by push_neg; exact ⟨hrun, htr⟩)]
      cases stopErr with
      | true =>
        simp only [if_pos rfl]
        refine ListInv_setAgent hs ?_
        exact ⟨by intro _; simpa using hpid, hrec.2⟩
      | false =>
        simp only [Bool.false_eq_true, if_neg]
        refine ListInv_setAgent hs ?_
        exact ⟨by rintro (h | h | h) <;> simp_all, by intro p hp; simp_all⟩

theorem pidInv_tickAgent (cfg : Config) (s : ControllerState) (name : String)
    (sample : Option Resources) (mse : Bool) (spawn : Option Nat)
    (now now2 : Nat)
    (hs : ListInv RecPidInv s.agents) (hp : ∀ p, spawn = some p → 0 < p) :
    ListInv RecPidInv
      (healthTickAgent cfg s name sample mse spawn now now2).agents := by
  unfold healthTickAgent
  cases hl : s.agents.lookup name with
  | none => simp only [hl]; exact hs
  | some agent =>
    have hrec := hs name agent hl
    simp only [hl]
    by_cases hg : agent.status = AgentStatus.running ∧ pidTruthy agent.pid
    · rw [if_pos hg]
      cases sample with
      | none =>
        have hfail : RecPidInv { agent with status := AgentStatus.failed } :=
          ⟨by rintro (h | h | h) <;> simp_all, hrec.2⟩
        by_cases hrof : cfg.restart_on_failure
        · by_cases hcnt : agent.restart_count < cfg.max_restart_attempts
          · simp only [hrof, hcnt, if_pos]
            apply pidInv_start _ _ _ _ _ _ hp
            refine ListInv_setAgent (ListInv_setAgent hs hfail) ?_
            exact ⟨hfail.1, hfail.2⟩
          · simp only [hrof, if_pos, if_neg hcnt]
            exact ListInv_setAgent hs hfail
        · simp only [if_neg hrof]
          exact ListInv_setAgent hs hfail
      | some r =>
        refine ListInv_setAgent hs ?_
        exact ⟨by intro h; simp_all [RecPidInv], by intro p hp'; simp_all [RecPidInv]⟩
    · rw [if_neg hg]
      exact hs

theorem pidInv_reachable (cfg : Config) (s : ControllerState)
    (h : Reachable cfg s) : ListInv RecPidInv s.agents := by
  induction h with
  | init => intro n a ha; simp [initState, List.lookup] at ha
  | register s name mpath manifest _ ih =>
    cases manifest with
    | none => exact ih
    | some m => exact ListInv_setAgent ih (recPidInv_register name mpath m)
  | start s name mse spawn now _ hp ih => exact pidInv_start s name mse spawn now ih hp
  | stop s name stopErr _ ih => exact pidInv_stop s name stopErr ih
  | submit s agent action params priority nowMs created _ ih => exact ih
  | tick s sample mse spawn now now2 _ hp ih =>
    unfold health_tick
    refine foldl_preserve (fun (st : ControllerState) => ListInv RecPidInv st.agents) _ _ _ ih ?_
    intro st n hst
    exact pidInv_tickAgent cfg st n (sample n) (mse n) (spawn n) (now n)
      (now2 n) hst (hp n)

theorem restartInv_startRun (cfg : Config) (s : ControllerState)
    (name : String) (mse : Bool) (spawn : Option Nat) (now : Nat)
    (hs : ListInv (RecBound cfg) s.agents) :
    ListInv (RecBound cfg) (startAgentRun s name mse spawn now).1.agents := by
  unfold startAgentRun
  cases hl : s.agents.lookup name with
  | none => simp only [hl]; exact hs
  | some agent =>
    have hrec := hs name agent hl
    by_cases hr : agent.status = AgentStatus.running
    · simp only [hl, hr, if_pos rfl]
      exact hs
    · cases hmse : mse with
      | false =>
        simp only [hl, if_neg hr, hmse]
        exact ListInv_setAgent hs hrec
      | true =>
        cases hsp : spawn with
        | none =>
          simp only [hl, if_neg hr, hmse]
          exact ListInv_setAgent hs hrec
        | some pid =>
          simp only [hl, if_neg hr, hmse]
          exact ListInv_setAgent hs hrec

theorem restartInv_stop (cfg : Config) (s : ControllerState) (name : String)
    (stopErr : Bool) (hs : ListInv (RecBound cfg) s.agents) :
    ListInv (RecBound cfg) (stop_agent s name stopErr).1.agents := by
  unfold stop_agent
  cases hl : s.agents.lookup name with
  | none => simp only [hl]; exact hs
  | some agent =>
    have hrec := hs name agent hl
    simp only [hl]
    by_cases hg : agent.status ≠ AgentStatus.running ∨ ¬ pidTruthy agent.pid
    · rw [if_pos hg]; exact hs
    · rw [if_neg hg]
      cases stopErr with
      | true => exact ListInv_setAgent hs hrec
      | false => exact ListInv_setAgent hs hrec

theorem restartInv_tickAgent (cfg : Config) (s : ControllerState)
    (name : String) (sample : Option Resources) (mse : Bool)
    (spawn : Option Nat) (now now2 : Nat)
    (hs : ListInv (RecBound cfg) s.agents) :
    ListInv (RecBound cfg)
      (healthTickAgent cfg s name sample mse spawn now now2).agents := by
  unfold healthTickAgent
  cases hl : s.agents.lookup name with
  | none => simp only [hl]; exact hs
  | some agent =>
    have hrec := hs name agent hl
    simp only [hl]
    by_cases hg : agent.status = AgentStatus.running ∧ pidTruthy agent.pid
    · rw [if_pos hg]
      cases sample with
      | none =>
        by_cases hrof : cfg.restart_on_failure
        · by_cases hcnt : agent.restart_count < cfg.max_restart_attempts
          · simp only [hrof, hcnt, if_pos]
            apply restartInv_startRun
            refine ListInv_setAgent (ListInv_setAgent hs hrec) ?_
            exact Nat.succ_le_of_lt hcnt
          · simp only [hrof, if_pos, if_neg hcnt]
            exact ListInv_setAgent hs hrec
        · simp only [if_neg hrof]
          exact ListInv_setAgent hs hrec
      | some r => exact ListInv_setAgent hs hrec
    · rw [if_neg hg]
      exact hs

theorem restartInv_reachable (cfg : Config) (s : ControllerState)
    (h : Reachable cfg s) : ListInv (RecBound cfg) s.agents := by
  induction h with
  | init => intro n a ha; simp [initState, List.lookup] at ha
  | register s name mpath manifest _ ih =>
    cases manifest with
    | none => exact ih
    | some m =>
      refine ListInv_setAgent ih ?_
      exact Nat.zero_le _
  | start s name mse spawn now _ hp ih =>
    exact restartInv_startRun cfg _ name mse spawn now ih
  | stop s name stopErr _ ih => exact restartInv_stop cfg s name stopErr ih
  | submit s agent action params priority nowMs created _ ih => exact ih
  | tick s sample mse spawn now now2 _ hp ih =>
    unfold health_tick
    refine foldl_preserve
      (fun (st : ControllerState) => ListInv (RecBound cfg) st.agents)
      _ _ _ ih ?_
    intro st n hst
    exact restartInv_tickAgent cfg st n (sample n) (mse n) (spawn n) (now n)
      (now2 n) hst

/-- When the health loop finds a dead agent whose restart budget is
exhausted, the tick only marks the record `Failed`: nothing else in the
state changes — in particular `start_agent` is not invoked (the ghost call
log is untouched). -/
theorem tickAgent_exhausted (cfg : Config) (s : ControllerState)
    (name : String) (mse : Bool) (spawn : Option Nat) (now now2 : Nat)
    (agent : AgentInfo) (hl : s.agents.lookup name = some agent)
    (hr : agent.status = AgentStatus.running) (htr : pidTruthy agent.pid)
    (hcnt : ¬ agent.restart_count < cfg.max_restart_attempts) :
    healthTickAgent cfg s name none mse spawn now now2 =
      { s with agents :=
          setAgent s.agents name { agent with status := AgentStatus.failed } } := by
  unfold healthTickAgent
  simp only [hl]
  rw [if_pos ⟨hr, htr⟩]
  by_cases hrof : cfg.restart_on_failure
  · simp only [hrof, if_pos, if_neg hcnt]
  · simp only [if_neg hrof]

/-- The only event `start_agent` can add to the bus is a `started`
event. -/
theorem published_startRun (s : ControllerState) (name : String)
    (mse : Bool) (spawn : Option Nat) (now : Nat) :
    ∀ e ∈ (startAgentRun s name mse spawn now).1.published,
      e ∈ s.published ∨ e.2.status = "started" := by
  unfold startAgentRun
  cases hl : s.agents.lookup name with
  | none => simp only [hl]; exact fun e he => Or.inl he
  | some agent =>
    by_cases hr : agent.status = AgentStatus.running
    · simp only [hl, hr, if_pos rfl]
      exact fun e he => Or.inl he
    · cases hmse : mse with
      | false =>
        simp only [hl, if_neg hr, hmse]
        exact fun e he => Or.inl he
      | true =>
        cases hsp : spawn with
        | none =>
          simp only [hl, if_neg hr, hmse]
          exact fun e he => Or.inl he
        | some pid =>
          simp only [hl, if_neg hr, hmse]
          intro e he
          rcases List.mem_append.mp he with h | h
          · exact Or.inl h
          · right
            simp only [List.mem_singleton] at h
            rw [h]

/-- The same, phrased for the ghost-logging wrapper `start_agent`. -/
theorem published_start (s : ControllerState) (name : String) (mse : Bool)
    (spawn : Option Nat) (now : Nat) :
    ∀ e ∈ (start_agent s name mse spawn now).1.published,
      e ∈ s.published ∨ e.2.status = "started" := by
  intro e he
  exact published_startRun
    { s with start_invocations := s.start_invocations ++ [name] }
    name mse spawn now e he

theorem reach_regA : Reachable cfgNoRestart regA :=
  Reachable.register _ _ _ _ Reachable.init

theorem reach_runA : Reachable cfgNoRestart runA :=
  Reachable.start _ "a" true (some 7) 100 reach_regA
    (by intro p hp; injection hp with h; omega)

/-- C1, counterexample: in the reachable state where a health-check tick
has just found agent `a` dead, the record has `status = Failed` with
`pid = 7` still set, refuting the claimed equivalence
`pid set ↔ status ∈ {Starting, Running, Stopping}`. -/
theorem c1_counterexample :
    Reachable cfgNoRestart tickDead ∧
    (tickDead.agents.lookup "a").map (fun a => (a.status, a.pid)) =
      some (AgentStatus.failed, some 7) ∧
    AgentStatus.failed ∉ [AgentStatus.starting, AgentStatus.running,
      AgentStatus.stopping] :=
  ⟨Reachable.tick _ _ _ _ _ _ reach_runA
      (fun _ _ hp => Option.noConfusion hp),
   by decide, by decide⟩

/-- C1, amended: in every reachable state, an agent record whose status is
`Starting`, `Running` or `Stopping` has a pid; the converse direction of
the claimed equivalence fails (see the counterexample: a dead agent keeps
its stale pid with status `Failed`). -/
theorem c1_pid_status (cfg : Config) (s : ControllerState)
    (h : Reachable cfg s) (n : String) (a : AgentInfo)
    (ha : s.agents.lookup n = some a)
    (hs : a.status = AgentStatus.starting ∨ a.status = AgentStatus.running ∨
      a.status = AgentStatus.stopping) :
    a.pid ≠ none :=
  (pidInv_reachable cfg s h n a ha).1 hs

theorem c1_pid_status_witness :
    runA.agents.lookup "a" = some runAgentA ∧
    (runAgentA.status = AgentStatus.starting ∨
     runAgentA.status = AgentStatus.running ∨
     runAgentA.status = AgentStatus.stopping) ∧
    runAgentA.pid ≠ none :=
  ⟨by decide, Or.inr (Or.inl (by decide)),
   c1_pid_status cfgNoRestart runA reach_runA "a" runAgentA (by decide)
     (Or.inr (Or.inl (by decide)))⟩

/-- C2: in every reachable state every record's `restart_count` is at most
`max_restart_attempts`, and for an agent whose count has reached the
maximum, a health-check tick that finds it dead only marks the record
`Failed` — the resulting state shows `start_agent` was not invoked (the
ghost invocation log, the spawn log and the published events are those of
`s` unchanged). -/
theorem c2_restart_bound (cfg : Config) (s : ControllerState)
    (h : Reachable cfg s) (n : String) (a : AgentInfo)
    (ha : s.agents.lookup n = some a) :
    a.restart_count ≤ cfg.max_restart_attempts ∧
    (a.restart_count = cfg.max_restart_attempts →
      a.status = AgentStatus.running → pidTruthy a.pid →
      ∀ mse spawn now now2,
        healthTickAgent cfg s n none mse spawn now now2 =
          { s with agents := setAgent s.agents n { a with status := AgentStatus.failed } }) := by
  refine ⟨restartInv_reachable cfg s h n a ha, ?_⟩
  intro hmax hr htr mse spawn now now2
  exact tickAgent_exhausted cfg s n mse spawn now now2 a ha hr htr (by omega)

theorem c2_restart_bound_witness :
    runA.agents.lookup "a" = some runAgentA ∧
    runAgentA.restart_count ≤ cfgNoRestart.max_restart_attempts :=
  ⟨by decide,
   (c2_restart_bound cfgNoRestart runA reach_runA "a" runAgentA
     (by decide)).1⟩

/-- C3, counterexample: stopping the running agent `a` (pid 7) while the
signalling raises leaves the record in `Stopping` with its pid — it does
not reach `Stopped` — and `stop_agent` returns failure. -/
theorem c3_counterexample :
    (stop_agent runA "a" true).2 = false ∧
    ((stop_agent runA "a" true).1.agents.lookup "a").map
      (fun a => (a.status, a.pid)) = some (AgentStatus.stopping, some 7) ∧
    AgentStatus.stopping ≠ AgentStatus.stopped :=
  ⟨by decide, by decide, by decide⟩

/-- C3, amended: when an error occurs while signalling/killing during
`stop_agent` on a running agent with a pid, the call logs the error and
returns `False`, leaving the record in status `Stopping` with its pid
unchanged (it does not reach `Stopped`). -/
theorem c3_stop_error (cfg : Config) (s : ControllerState)
    (h : Reachable cfg s) (name : String) (a : AgentInfo) (p : Nat)
    (ha : s.agents.lookup name = some a)
    (hr : a.status = AgentStatus.running) (hp : a.pid = some p) :
    (stop_agent s name true).2 = false ∧
    (stop_agent s name true).1.agents.lookup name =
      some { a with status := AgentStatus.stopping } := by
  have hpos := (pidInv_reachable cfg s h name a ha).2 p hp
  have htr : pidTruthy a.pid := by
    rw [hp]; simp only [pidTruthy, decide_eq_true_eq]; omega
  unfold stop_agent
  simp only [ha]
  rw [if_neg (by simp [hr, htr]), if_pos True.intro]
  refine ⟨rfl, ?_⟩
  dsimp only
  rw [lookup_setAgent, if_pos rfl]

/-- C4, counterexample: two equal-priority submissions — agent `z` first
(ms 1000), agent `a` second (ms 2000) — dequeue as `a` before `z`: the tie
is broken by the task-id string, not by ascending submission time, so the
first-submitted task is not dequeued first. -/
theorem c4_counterexample :
    (submit_task initState "z" "x" [] 5 1000 1000).2 = "z_x_1000" ∧
    (submit_task (submit_task initState "z" "x" [] 5 1000 1000).1
        "a" "x" [] 5 2000 2000).2 = "a_x_2000" ∧
    drainQueue tieTaskState.task_queue = ["a_x_2000", "z_x_1000"] :=
  ⟨by decide, by decide, by decide⟩

/-- C4, amended: the scheduler dequeues by descending priority, and ties
in priority are broken by ascending task-id string
(`agent_action_timestampMs`, Python string order), not by submission time;
the concrete example `(5,a),(8,b),(5,c)` does yield `b, a, c`. -/
theorem c4_queue_order (s : ControllerState) (hq : s.task_queue = [])
    (ag1 act1 ag2 act2 : String) (ps1 ps2 : List (String × String))
    (t1 t2 k1 k2 : Nat) (prio1 prio2 : Int) :
    (prio1 < prio2 →
      drainQueue (submit_task (submit_task s ag1 act1 ps1 prio1 t1 k1).1
          ag2 act2 ps2 prio2 t2 k2).1.task_queue =
        [mkTaskId ag2 act2 t2, mkTaskId ag1 act1 t1]) ∧
    (prio1 = prio2 →
      pyStrLe (mkTaskId ag2 act2 t2) (mkTaskId ag1 act1 t1) = true →
      drainQueue (submit_task (submit_task s ag1 act1 ps1 prio1 t1 k1).1
          ag2 act2 ps2 prio2 t2 k2).1.task_queue =
        [mkTaskId ag2 act2 t2, mkTaskId ag1 act1 t1]) ∧
    (prio1 = prio2 →
      pyStrLe (mkTaskId ag2 act2 t2) (mkTaskId ag1 act1 t1) = false →
      drainQueue (submit_task (submit_task s ag1 act1 ps1 prio1 t1 k1).1
          ag2 act2 ps2 prio2 t2 k2).1.task_queue =
        [mkTaskId ag1 act1 t1, mkTaskId ag2 act2 t2]) ∧
    drainQueue exampleTaskState.task_queue =
      ["b_x_1001", "a_x_1000", "c_x_1002"] := by
  refine ⟨?_, ?_, ?_, by decide⟩
  · intro hlt
    have hkey : keyLE (-prio2, mkTaskId ag2 act2 t2)
        (-prio1, mkTaskId ag1 act1 t1) = true := by
      have hn : (-prio2 : Int) < -prio1 := by omega
      simp [keyLE, hn]
    simp [submit_task, hq, queueInsert, hkey, drainQueue]
  · intro heq hle
    have hkey : keyLE (-prio2, mkTaskId ag2 act2 t2)
        (-prio1, mkTaskId ag1 act1 t1) = true := by
      have hn : (-prio2 : Int) = -prio1 := by omega
      simp [keyLE, hn, hle]
    simp [submit_task, hq, queueInsert, hkey, drainQueue]
  · intro heq hle
    have hkey : keyLE (-prio2, mkTaskId ag2 act2 t2)
        (-prio1, mkTaskId ag1 act1 t1) = false := by
      have hn : ¬ ((-prio2 : Int) < -prio1) := by omega
      have hn2 : (-prio2 : Int) = -prio1 := by omega
      simp [keyLE, hn, hn2, hle]
    simp [submit_task, hq, queueInsert, hkey, drainQueue]

theorem c4_queue_order_witness :
    initState.task_queue = [] ∧
    ((5 : Int) < 8 →
      drainQueue (submit_task (submit_task initState "z" "x" [] 5 1000 1000).1
          "a" "x" [] 8 2000 2000).1.task_queue =
        [mkTaskId "a" "x" 2000, mkTaskId "z" "x" 1000]) :=
  ⟨rfl,
   (c4_queue_order initState rfl "z" "x" "a" "x" [] [] 1000 2000 1000 2000
     5 8).1⟩

/-- C5: evaluated at the failing input — two back-to-back submissions with
the same agent, action and millisecond clock reading — `submit_task`
returns the same id `agent_act_1000` for both calls, so task ids are not
globally unique under rapid submission. -/
theorem c5_collision :
    (submit_task initState "agent" "act" [] 5 1000 1000).2 =
      "agent_act_1000" ∧
    (submit_task (submit_task initState "agent" "act" [] 5 1000 1000).1
        "agent" "act" [] 5 1000 1000).2 = "agent_act_1000" :=
  ⟨rfl, rfl⟩

/-- C6, counterexample: the tick on `runA` that finds agent `a` dead marks
the record `Failed`, but the bus still carries only the original `started`
event — no `agent.status` event is published for the failed transition. -/
theorem c6_counterexample :
    (tickDead.agents.lookup "a").map AgentInfo.status =
      some AgentStatus.failed ∧
    runA.published =
      [("agent.status",
        { agent := "a", status := "started", pid := some 7 })] ∧
    tickDead.published = runA.published :=
  ⟨by decide, by decide, by decide⟩

/-- C6, amended: when a health-check tick finds a running agent's process
dead it marks the record `Failed` and logs a warning, but publishes no
`agent.status` event for the failed transition — any event the tick adds
to the bus is a `started` event from a successful restart; with restarts
disabled the record is left in `Failed` and nothing is published. -/
theorem c6_no_failed_event (cfg : Config) (s : ControllerState)
    (name : String) (a : AgentInfo)
    (ha : s.agents.lookup name = some a)
    (hr : a.status = AgentStatus.running) (htr : pidTruthy a.pid)
    (mse : Bool) (spawn : Option Nat) (now now2 : Nat) :
    (∀ e ∈ (healthTickAgent cfg s name none mse spawn now now2).published,
       e ∈ s.published ∨ e.2.status = "started") ∧
    (cfg.restart_on_failure = false →
      (healthTickAgent cfg s name none mse spawn
          now now2).agents.lookup name =
        some { a with status := AgentStatus.failed }) := by
  unfold healthTickAgent
  simp only [ha]
  rw [if_pos ⟨hr, htr⟩]
  constructor
  · by_cases hrof : cfg.restart_on_failure
    · by_cases hcnt : a.restart_count < cfg.max_restart_attempts
      · simp only [hrof, hcnt, if_pos]
        intro e he
        exact published_start
          { s with agents := setAgent (setAgent s.agents name { a with status := AgentStatus.failed }) name { a with status := AgentStatus.failed, restart_count := a.restart_count + 1 } }
          name mse spawn now2 e he
      · simp only [hrof, if_pos, if_neg hcnt]
        exact fun e he => Or.inl he
    · simp only [if_neg hrof]
      exact fun e he => Or.inl he
  · intro hrof
    simp only [hrof, Bool.false_eq_true, if_false]
    rw [lookup_setAgent, if_pos rfl]

theorem c6_no_failed_event_witness :
    runA.agents.lookup "a" = some runAgentA ∧
    runAgentA.status = AgentStatus.running ∧
    pidTruthy runAgentA.pid = true ∧
    cfgNoRestart.restart_on_failure = false ∧
    (healthTickAgent cfgNoRestart runA "a" none true none
        200 201).agents.lookup "a" =
      some { runAgentA with status := AgentStatus.failed } :=
  ⟨by decide, by decide, by decide, by decide,
   (c6_no_failed_event cfgNoRestart runA "a" runAgentA (by decide)
     (by decide) (by decide) true none 200 201).2 (by decide)⟩

theorem c3_stop_error_witness :
    runA.agents.lookup "a" = some runAgentA ∧
    runAgentA.status = AgentStatus.running ∧
    runAgentA.pid = some 7 ∧
    ((stop_agent runA "a" true).2 = false ∧
     (stop_agent runA "a" true).1.agents.lookup "a" =
       some { runAgentA with status := AgentStatus.stopping }) :=
  ⟨by decide, by decide, by decide,
   c3_stop_error cfgNoRestart runA reach_runA "a" runAgentA 7
     (by decide) (by decide) (by decide)⟩

/-- C7, counterexample: registering `a` again while its record is
`Running` does not fail with a `DuplicateAgent` error — `register_agent`
silently overwrites the existing record with a fresh `Stopped` one, so the
existing record is not left unchanged. -/
theorem c7_counterexample :
    (runA.agents.lookup "a").map AgentInfo.status =
      some AgentStatus.running ∧
    (register_agent runA "a" "agents/a/manifest.yaml"
        (some (some 5))).agents.lookup "a" =
      some { name := "a", manifest_path := "agents/a/manifest.yaml",
             status := AgentStatus.stopped, pid := none, priority := 5,
             last_health_check := none, restart_count := 0,
             resource_usage := none } :=
  ⟨by decide, by decide⟩

/-- C7, amended: with a readable manifest, `register_agent` always stores
a fresh record with `status = Stopped` under the given name — overwriting
any existing record rather than failing with `DuplicateAgent` — and an
unreadable manifest leaves the state unchanged. -/
theorem c7_register_overwrites (s : ControllerState) (name mpath : String)
    (m : Option Int) :
    (register_agent s name mpath (some m)).agents.lookup name =
      some { name := name, manifest_path := mpath,
             status := AgentStatus.stopped, priority := m.getD 5 } ∧
    register_agent s name mpath none = s := by
  refine ⟨?_, rfl⟩
  unfold register_agent
  dsimp only
  rw [lookup_setAgent, if_pos rfl]

/-- C8: `start_agent` on an agent whose record is `Running` returns
success and changes nothing observable: the agents dict, the ghost spawn
log and the published events are untouched (no new process is spawned). -/
theorem c8_start_idempotent (s : ControllerState) (name : String)
    (a : AgentInfo) (mse : Bool) (spawn : Option Nat) (now : Nat)
    (ha : s.agents.lookup name = some a)
    (hr : a.status = AgentStatus.running) :
    (start_agent s name mse spawn now).2 = true ∧
    (start_agent s name mse spawn now).1.agents = s.agents ∧
    (start_agent s name mse spawn now).1.spawned = s.spawned ∧
    (start_agent s name mse spawn now).1.published = s.published := by
  unfold start_agent startAgentRun
  dsimp only
  simp only [ha, hr, if_pos rfl]
  exact ⟨rfl, rfl, rfl, rfl⟩

theorem c8_start_idempotent_witness :
    runA.agents.lookup "a" = some runAgentA ∧
    runAgentA.status = AgentStatus.running ∧
    ((start_agent runA "a" false none 0).2 = true ∧
     (start_agent runA "a" false none 0).1.agents = runA.agents ∧
     (start_agent runA "a" false none 0).1.spawned = runA.spawned ∧
     (start_agent runA "a" false none 0).1.published = runA.published) :=
  ⟨by decide, by decide,
   c8_start_idempotent runA "a" runAgentA false none 0
     (by decide) (by decide)⟩

/-- Every callback subscribed to the topic is invoked on the message,
whatever any of the callbacks do. -/
theorem mem_dispatchTopic (cbs : List MessageBus.Callback) (topic : String)
    (m : MessageBus.Msg) (cb : MessageBus.Callback) (hcb : cb ∈ cbs) :
    (cb.id, topic, m) ∈ (MessageBus.dispatchTopic cbs topic m).1 := by
  induction cbs with
  | nil => cases hcb
  | cons c rest ih =>
    unfold MessageBus.dispatchTopic
    rcases List.mem_cons.mp hcb with hc | hc
    · subst hc
      cases hrun : MessageBus.runCallback cb m <;>
        simp only [hrun] <;> exact List.mem_cons_self _ _
    · cases hrun : MessageBus.runCallback c m <;>
        simp only [hrun] <;> exact List.mem_cons_of_mem _ (ih hc)

/-- C9: when the bus dispatches a message on a topic with several
subscribed callbacks, a callback that raises (here `bad`) does not prevent
delivery of that same message to every other callback (`good` receives
it), and the bus goes on to process the remaining messages. -/
theorem c9_subscriber_isolation
    (subs : List (String × List MessageBus.Callback)) (topic : String)
    (m : MessageBus.Msg) (cbs : List MessageBus.Callback)
    (hsub : subs.lookup topic = some cbs)
    (bad : MessageBus.Callback) (hbad : bad ∈ cbs)
    (hfail : bad.fails m = true)
    (good : MessageBus.Callback) (hgood : good ∈ cbs)
    (rest : List (String × MessageBus.Msg)) :
    (good.id, topic, m) ∈ MessageBus.processAll subs ((topic, m) :: rest) ∧
    MessageBus.processAll subs ((topic, m) :: rest) =
      (MessageBus.processMessage subs topic m).1 ++
        MessageBus.processAll subs rest := by
  refine ⟨?_, rfl⟩
  show (good.id, topic, m) ∈
    (MessageBus.processMessage subs topic m).1 ++
      MessageBus.processAll subs rest
  apply List.mem_append_left
  unfold MessageBus.processMessage
  rw [hsub]
  exact mem_dispatchTopic cbs topic m good hgood

theorem c9_subscriber_isolation_witness :
    demoSubs.lookup "agent.status" = some [badCb, goodCb] ∧
    badCb ∈ [badCb, goodCb] ∧
    badCb.fails demoMsg = true ∧
    goodCb ∈ [badCb, goodCb] ∧
    (goodCb.id, "agent.status", demoMsg) ∈
      MessageBus.processAll demoSubs [("agent.status", demoMsg)] :=
  ⟨rfl, List.mem_cons_self _ _, rfl,
   List.mem_cons_of_mem _ (List.mem_cons_self _ _),
   (c9_subscriber_isolation demoSubs "agent.status" demoMsg [badCb, goodCb]
     rfl badCb (List.mem_cons_self _ _) rfl goodCb
     (List.mem_cons_of_mem _ (List.mem_cons_self _ _)) []).1⟩

/-- C10: a successful error-free `stop_agent` on a reachable running
agent with a pid returns success and rewrites the record to exactly
`{ a with status := Stopped, pid := none }`: the name, manifest path,
priority, restart count, last health check and resource snapshot are all
unchanged. -/
theorem c10_stop_frame (cfg : Config) (s : ControllerState)
    (h : Reachable cfg s) (name : String) (a : AgentInfo) (p : Nat)
    (ha : s.agents.lookup name = some a)
    (hr : a.status = AgentStatus.running) (hp : a.pid = some p) :
    (stop_agent s name false).2 = true ∧
    (stop_agent s name false).1.agents.lookup name =
      some { a with status := AgentStatus.stopped, pid := none } := by
  have hpos := (pidInv_reachable cfg s h name a ha).2 p hp
  have htr : pidTruthy a.pid = true := by
    rw [hp]; simp only [pidTruthy, decide_eq_true_eq]; omega
  unfold stop_agent
  simp only [ha]
  rw [if_neg (by simp [hr, htr]), if_neg (by simp)]
  refine ⟨rfl, ?_⟩
  dsimp only
  rw [lookup_setAgent, if_pos rfl]

theorem c10_stop_frame_witness :
    runA.agents.lookup "a" = some runAgentA ∧
    runAgentA.status = AgentStatus.running ∧
    runAgentA.pid = some 7 ∧
    ((stop_agent runA "a" false).2 = true ∧
     (stop_agent runA "a" false).1.agents.lookup "a" =
       some { runAgentA with status := AgentStatus.stopped, pid := none }) :=
  ⟨by decide, by decide, by decide,
   c10_stop_frame cfgNoRestart runA reach_runA "a" runAgentA 7
     (by decide) (by decide) (by decide)⟩

end MasterController
